import Mathlib

/-!
Shallow embedding of the gopay-service payment-initiation core.

The embedding follows the Go sources:
* `internal/domain` (value types, Payment aggregate, events),
* `internal/adapters/postgres` (Repository: Save / upsertPayment /
  writeOutboxEvents / FindByIdempotencyKey, over the migration schema),
* `internal/app` (PaymentService.InitiatePayment, request validation),
* `internal/transport/http` (handler: Validate before calling the service).

Machine strings are Lean `String`s; Go's `strings.TrimSpace` and
`strings.ToUpper` are modelled explicitly over the character list.
Wall-clock instants and generated UUIDs are passed as parameters.
-/

namespace GoPay

/-- Model of Go `strings.TrimSpace`: drop whitespace from both ends. -/
def goTrimSpace (s : String) : String :=
  ⟨((s.data.dropWhile Char.isWhitespace).reverse.dropWhile Char.isWhitespace).reverse⟩

/-- Model of Go `strings.ToUpper` (ASCII case mapping). -/
def goToUpper (s : String) : String :=
  ⟨s.data.map Char.toUpper⟩

/-! ## Domain value types (`internal/domain`) -/

structure Money where
  amount : Int
  currency : String
deriving DecidableEq, Repr

/-- `domain.NewMoney`: positive amount, currency trimmed, uppercased and
of length exactly 3. -/
def NewMoney (amount : Int) (currency : String) : Except String Money :=
  if amount ≤ 0 then
    .error "amount must be positive"
  else
    let c := goToUpper (goTrimSpace currency)
    if c.length ≠ 3 then
      .error "currency must be a 3-letter"
    else
      .ok { amount := amount, currency := c }

inductive PaymentStatus where
  | pending
  | processing
  | completed
  | failed
deriving DecidableEq, Repr

/-- The string form of a `PaymentStatus` (the Go `PaymentStatus` string). -/
def statusString : PaymentStatus → String
  | .pending => "PENDING"
  | .processing => "PROCESSING"
  | .completed => "COMPLETED"
  | .failed => "FAILED"

/-- `domain.PaymentInitiated` event payload. -/
structure PaymentInitiated where
  paymentID : String
  orderID : String
  amount : Int
  currency : String
  occurredAt : Nat
deriving DecidableEq, Repr

/-- `domain.Event`; the core produces only `PaymentInitiated`. -/
inductive Event where
  | initiated (e : PaymentInitiated)
deriving DecidableEq, Repr

/-- `domain.EventType`. -/
def eventTypeOf : Event → String
  | .initiated _ => "payment.initiated"

/-- `domain.Payment` aggregate. -/
structure Payment where
  id : String
  orderID : String
  customerID : String
  amount : Money
  status : PaymentStatus
  providerRef : String
  failureReason : String
  idempotencyKey : String
  createdAt : Nat
  updatedAt : Nat
  version : Int
  events : List Event
deriving DecidableEq, Repr

/-- `domain.New`: create a payment aggregate.  The generated UUID and the
current UTC instant are passed in as `freshID` and `now`. -/
def New (orderID customerID : String) (amount : Money) (idempotencyKey : String)
    (freshID : String) (now : Nat) : Except String Payment :=
  if goTrimSpace orderID = "" then
    .error "orderID is required"
  else if goTrimSpace customerID = "" then
    .error "customerID is required"
  else if goTrimSpace idempotencyKey = "" then
    .error "idempotencyKey is required"
  else
    .ok { id := freshID
          orderID := orderID
          customerID := customerID
          amount := amount
          status := .pending
          providerRef := ""
          failureReason := ""
          idempotencyKey := idempotencyKey
          createdAt := now
          updatedAt := now
          version := 1
          events := [.initiated { paymentID := freshID
                                  orderID := orderID
                                  amount := amount.amount
                                  currency := amount.currency
                                  occurredAt := now }] }

/-- `Payment.PopEvents`: return the buffered events and empty the buffer. -/
def PopEvents (p : Payment) : List Event × Payment :=
  (p.events, { p with events := [] })

/-- `domain.Reconstitute`: pure rehydration, never adds to the buffer. -/
def Reconstitute (id orderID customerID : String) (amount : Money)
    (status : PaymentStatus) (providerRef failureReason idempotencyKey : String)
    (createdAt updatedAt : Nat) (version : Int) : Payment :=
  { id := id
    orderID := orderID
    customerID := customerID
    amount := amount
    status := status
    providerRef := providerRef
    failureReason := failureReason
    idempotencyKey := idempotencyKey
    createdAt := createdAt
    updatedAt := updatedAt
    version := version
    events := [] }

/-! ## Persistent store (`internal/adapters/postgres`, migration schema)

A `Row` is one record of the `payments` table; `OutboxRow` one record of
`outbox_events`.  The schema enforces `amount_cents > 0` (CHECK), a unique
index on `idempotency_key`, and a BEFORE UPDATE trigger that overwrites
`updated_at` with `NOW()`.  `dbNow` stands for the database's `NOW()`.
JSON marshaling of an event and outbox-insert failures are injected as the
parameters `mar` (marshal result per event) and `insf` (whether the i-th
outbox insert of the transaction fails), so the code's handling of each
failure is part of the model. -/

structure Row where
  id : String
  orderID : String
  customerID : String
  amountCents : Int
  currency : String
  status : PaymentStatus
  providerRef : String
  failureReason : String
  idempotencyKey : String
  createdAt : Nat
  updatedAt : Nat
  version : Int
deriving DecidableEq, Repr

structure OutboxRow where
  aggregateID : String
  eventType : String
  payload : String
  createdAt : Nat
deriving DecidableEq, Repr

structure DB where
  payments : List Row
  outbox : List OutboxRow
deriving DecidableEq, Repr

inductive SaveErr where
  /-- `domain.ErrVersionConflict`: the conditional upsert affected 0 rows. -/
  | versionConflict
  /-- unique-constraint violation on `idx_payments_idempotency_key`. -/
  | uniqueKeyViolation
  /-- CHECK violation (`amount_cents > 0`). -/
  | checkViolation
  /-- `json.Marshal` of an event payload failed inside the transaction. -/
  | marshalFailed
  /-- an `outbox_events` INSERT failed inside the transaction. -/
  | outboxInsertFailed
deriving DecidableEq, Repr

/-- The `payments` row written for an aggregate (the VALUES of the upsert). -/
def rowOfPayment (p : Payment) : Row :=
  { id := p.id
    orderID := p.orderID
    customerID := p.customerID
    amountCents := p.amount.amount
    currency := p.amount.currency
    status := p.status
    providerRef := p.providerRef
    failureReason := p.failureReason
    idempotencyKey := p.idempotencyKey
    createdAt := p.createdAt
    updatedAt := p.updatedAt
    version := p.version }

/-- The DO UPDATE branch of the upsert: only status, provider_ref,
failure_reason, updated_at and version are SET; the trigger overwrites
updated_at with `NOW()` (`dbNow`). -/
def applyUpdate (dbNow : Nat) (p : Payment) (r : Row) : Row :=
  { r with status := p.status
           providerRef := p.providerRef
           failureReason := p.failureReason
           updatedAt := dbNow
           version := p.version }

/-- `Repository.upsertPayment`: INSERT .. ON CONFLICT (id) DO UPDATE ..
WHERE payments.version = EXCLUDED.version - 1; zero affected rows is
reported as `versionConflict`. -/
def upsertPayment (dbNow : Nat) (p : Payment) (rows : List Row) :
    Except SaveErr (List Row) :=
  match rows.find? (fun r => r.id == p.id) with
  | some row =>
    if row.version = p.version - 1 then
      .ok (rows.map fun r => if r.id == p.id then applyUpdate dbNow p r else r)
    else
      .error .versionConflict
  | none =>
    if p.amount.amount ≤ 0 then
      .error .checkViolation
    else if rows.any (fun r => r.idempotencyKey == p.idempotencyKey) then
      .error .uniqueKeyViolation
    else
      .ok (rows ++ [rowOfPayment p])

/-- The insert loop of `Repository.writeOutboxEvents`: one
`INSERT INTO outbox_events` per event, aborting on a marshal error or a
failed insert. -/
def writeEventsLoop (mar : Event → Except Unit String) (insf : Nat → Bool)
    (dbNow : Nat) (aggID : String) :
    List Event → Nat → List OutboxRow → Except SaveErr (List OutboxRow)
  | [], _, outbox => .ok outbox
  | e :: rest, i, outbox =>
    match mar e with
    | .error _ => .error .marshalFailed
    | .ok payload =>
      if insf i then
        .error .outboxInsertFailed
      else
        writeEventsLoop mar insf dbNow aggID rest (i + 1)
          (outbox ++ [{ aggregateID := aggID
                        eventType := eventTypeOf e
                        payload := payload
                        createdAt := dbNow }])

/-- `Repository.writeOutboxEvents`: drains the aggregate's buffer (a side
effect on the in-memory aggregate that survives even a rollback) and inserts
one outbox row per drained event. -/
def writeOutboxEvents (mar : Event → Except Unit String) (insf : Nat → Bool)
    (dbNow : Nat) (p : Payment) (outbox : List OutboxRow) :
    Except SaveErr (List OutboxRow) × Payment :=
  let drained := PopEvents p
  if drained.1.isEmpty then
    (.ok outbox, drained.2)
  else
    (writeEventsLoop mar insf dbNow p.id drained.1 0 outbox, drained.2)

/-- `Repository.Save`: upsert plus outbox writes in one transaction
(`withTx`); on any error the transaction is rolled back, so the returned
database is the input database.  The third component is the in-memory
aggregate after the call (its buffer is drained once `writeOutboxEvents`
ran, even on rollback). -/
def Save (mar : Event → Except Unit String) (insf : Nat → Bool) (dbNow : Nat)
    (p : Payment) (db : DB) : Except SaveErr Unit × DB × Payment :=
  match upsertPayment dbNow p db.payments with
  | .error e => (.error e, db, p)
  | .ok rows =>
    match writeOutboxEvents mar insf dbNow p db.outbox with
    | (.error e, p') => (.error e, db, p')
    | (.ok outbox, p') => (.ok (), { payments := rows, outbox := outbox }, p')

inductive FindErr where
  /-- a stored row failed to rehydrate in `scanPayment`. -/
  | scanFailed
deriving DecidableEq, Repr

/-- `Repository.FindByIdempotencyKey`: `WHERE idempotency_key = $1`, absent
row mapped to `none`; a found row is rehydrated via `NewMoney` and
`Reconstitute` (`scanPayment`). -/
def FindByIdempotencyKey (key : String) (db : DB) : Except FindErr (Option Payment) :=
  match db.payments.find? (fun r => r.idempotencyKey == key) with
  | none => .ok none
  | some r =>
    match NewMoney r.amountCents r.currency with
    | .error _ => .error .scanFailed
    | .ok m =>
      .ok (some (Reconstitute r.id r.orderID r.customerID m r.status
        r.providerRef r.failureReason r.idempotencyKey r.createdAt r.updatedAt
        r.version))

/-! ## Application service (`internal/app`) and HTTP handler

`PaymentService.InitiatePayment` is modelled as a function of the request
and the current cache and database states.  The deduplication cache is an
abstract capability (`CacheOps`): `get` may fail (store unavailable), miss,
hit a corrupt entry (modelled as `some none`, Go's unparseable cached
string) or hit a parseable response; `setNX` is best-effort (its error is
swallowed by the service, so it is state-only).  A `Trace` counts the
repository calls the service actually performed, so "no store access"
claims are statable. -/

structure InitiatePaymentRequest where
  orderID : String
  customerID : String
  amountCents : Int
  currency : String
  idempotencyKey : String
deriving DecidableEq, Repr

structure InitiatePaymentResponse where
  paymentID : String
  status : String
deriving DecidableEq, Repr

/-- `InitiatePaymentRequest.Validate`. -/
def Validate (r : InitiatePaymentRequest) : Except String Unit :=
  if r.orderID = "" then
    .error "order_id is required"
  else if r.customerID = "" then
    .error "customer_id is required"
  else if r.amountCents ≤ 0 then
    .error "amount_cents must be a positive integer"
  else if r.currency = "" then
    .error "currency is required"
  else if r.idempotencyKey = "" then
    .error "idempotency_key is required"
  else
    .ok ()

/-- The `IdempotencyStore` capability as the orchestrator consumes it. -/
structure CacheOps (κ : Type) where
  get : κ → String → κ × Except Unit (Option (Option InitiatePaymentResponse))
  setNX : κ → String → InitiatePaymentResponse → κ

/-- A permanently failing cache: every Get errors, every Set is a no-op. -/
def failingCache : CacheOps Unit :=
  { get := fun s _ => (s, .error ())
    setNX := fun s _ _ => s }

/-- The Redis-backed cache under normal operation: Get returns the stored
entry, Set is SET NX (first writer wins). -/
def memCache : CacheOps (List (String × Option InitiatePaymentResponse)) :=
  { get := fun s k => (s, .ok ((s.find? (fun e => e.1 == k)).map (·.2)))
    setNX := fun s k v =>
      if s.any (fun e => e.1 == k) then s else s ++ [(k, some v)] }

inductive SvcErr where
  /-- wrapped "idempotency key lookup" failure. -/
  | lookupFailed (e : FindErr)
  /-- wrapped "invalid amount" (`NewMoney`) failure. -/
  | invalidMoney (msg : String)
  /-- wrapped "create payment" (`New`) failure. -/
  | createFailed (msg : String)
  /-- wrapped "save payment" failure. -/
  | saveFailed (e : SaveErr)
deriving DecidableEq, Repr

/-- Repository calls performed during one service call. -/
structure Trace where
  findCalls : Nat
  saveCalls : Nat
  outboxWriteCalls : Nat
deriving DecidableEq, Repr

/-- The orchestrator's post-save loop over `payment.PopEvents()`: marshal
each event (skipping it on error) and call `OutboxWriter.Write` (the
non-transactional `Repository.Write`), counting the Write calls. -/
def orchOutboxLoop (mar : Event → Except Unit String) (dbNow : Nat)
    (aggID : String) : List Event → DB → Nat → DB × Nat
  | [], db, n => (db, n)
  | e :: rest, db, n =>
    match mar e with
    | .error _ => orchOutboxLoop mar dbNow aggID rest db n
    | .ok payload =>
      orchOutboxLoop mar dbNow aggID rest
        { db with outbox := db.outbox ++ [{ aggregateID := aggID
                                            eventType := eventTypeOf e
                                            payload := payload
                                            createdAt := dbNow }] }
        (n + 1)

/-- The creation tail of `PaymentService.InitiatePayment` (everything after
the authoritative lookup returned no aggregate): build Money, build the
aggregate, `Save` it, run the post-save event loop, cache and return the
response.  A `Save` error is wrapped and propagated ("save payment: %w"). -/
def createAndSave {κ : Type} (C : CacheOps κ) (mar : Event → Except Unit String)
    (insf : Nat → Bool) (freshID : String) (now : Nat)
    (req : InitiatePaymentRequest) (cache : κ) (db : DB) :
    Except SvcErr InitiatePaymentResponse × κ × DB × Trace :=
  match NewMoney req.amountCents req.currency with
  | .error msg => (.error (.invalidMoney msg), cache, db, ⟨0, 0, 0⟩)
  | .ok money =>
    match New req.orderID req.customerID money req.idempotencyKey freshID now with
    | .error msg => (.error (.createFailed msg), cache, db, ⟨0, 0, 0⟩)
    | .ok payment =>
      match Save mar insf now payment db with
      | (.error e, db', _) => (.error (.saveFailed e), cache, db', ⟨0, 1, 0⟩)
      | (.ok _, db', payment') =>
        let drained := PopEvents payment'
        let written := orchOutboxLoop mar now payment'.id drained.1 db' 0
        let resp : InitiatePaymentResponse :=
          { paymentID := payment'.id, status := statusString payment'.status }
        (.ok resp, C.setNX cache req.idempotencyKey resp, written.1,
          ⟨0, 1, written.2⟩)

/-- `PaymentService.InitiatePayment`: cache fast path (errors and corrupt
entries fall through), authoritative `FindByIdempotencyKey` (existing
aggregate is returned and re-cached), otherwise the creation tail. -/
def InitiatePayment {κ : Type} (C : CacheOps κ) (mar : Event → Except Unit String)
    (insf : Nat → Bool) (freshID : String) (now : Nat)
    (req : InitiatePaymentRequest) (cache : κ) (db : DB) :
    Except SvcErr InitiatePaymentResponse × κ × DB × Trace :=
  let got := C.get cache req.idempotencyKey
  match got.2 with
  | .ok (some (some resp)) => (.ok resp, got.1, db, ⟨0, 0, 0⟩)
  | _ =>
    match FindByIdempotencyKey req.idempotencyKey db with
    | .error e => (.error (.lookupFailed e), got.1, db, ⟨1, 0, 0⟩)
    | .ok (some existing) =>
      let resp : InitiatePaymentResponse :=
        { paymentID := existing.id, status := statusString existing.status }
      (.ok resp, C.setNX got.1 req.idempotencyKey resp, db, ⟨1, 0, 0⟩)
    | .ok none =>
      let tail := createAndSave C mar insf freshID now req got.1 db
      (tail.1, tail.2.1, tail.2.2.1,
        { tail.2.2.2 with findCalls := tail.2.2.2.findCalls + 1 })

inductive HandlerErr where
  /-- 400 VALIDATION_ERROR from the HTTP handler. -/
  | validation (msg : String)
  /-- any error coming back from the service. -/
  | service (e : SvcErr)
deriving DecidableEq, Repr

/-- The HTTP handler's behaviour around the service call: `req.Validate()`
first (fail fast, no service call), then `InitiatePayment`. -/
def handleInitiatePayment {κ : Type} (C : CacheOps κ)
    (mar : Event → Except Unit String) (insf : Nat → Bool) (freshID : String)
    (now : Nat) (req : InitiatePaymentRequest) (cache : κ) (db : DB) :
    Except HandlerErr InitiatePaymentResponse × κ × DB × Trace :=
  match Validate req with
  | .error msg => (.error (.validation msg), cache, db, ⟨0, 0, 0⟩)
  | .ok _ =>
    match InitiatePayment C mar insf freshID now req cache db with
    | (.error e, c, d, t) => (.error (.service e), c, d, t)
    | (.ok r, c, d, t) => (.ok r, c, d, t)

/-- The aggregate `domain.New` constructs for a request (named form of the
record `New` returns, used to keep proofs readable). -/
def freshPayment (req : InitiatePaymentRequest) (money : Money)
    (freshID : String) (now : Nat) : Payment :=
  { id := freshID
    orderID := req.orderID
    customerID := req.customerID
    amount := money
    status := .pending
    providerRef := ""
    failureReason := ""
    idempotencyKey := req.idempotencyKey
    createdAt := now
    updatedAt := now
    version := 1
    events := [.initiated { paymentID := freshID
                            orderID := req.orderID
                            amount := money.amount
                            currency := money.currency
                            occurredAt := now }] }

/-! ### Concrete sample data (used by witnesses and counterexamples) -/

/-- A stored `payments` row: key "K", identifier "A", version 2. -/
def sampleRow : Row :=
  { id := "A"
    orderID := "O"
    customerID := "C"
    amountCents := 5
    currency := "USD"
    status := .pending
    providerRef := ""
    failureReason := ""
    idempotencyKey := "K"
    createdAt := 0
    updatedAt := 0
    version := 2 }

/-- An in-memory aggregate carrying version 2 against identifier "A"
(the same version as `sampleRow`, so its save must conflict). -/
def sampleUpdater : Payment :=
  { id := "A"
    orderID := "O"
    customerID := "C"
    amount := { amount := 5, currency := "USD" }
    status := .processing
    providerRef := ""
    failureReason := ""
    idempotencyKey := "K"
    createdAt := 0
    updatedAt := 1
    version := 2
    events := [] }

/-- A fresh aggregate as `domain.New` produces it (version 1, one buffered
event), under idempotency key "K1". -/
def sampleFresh : Payment :=
  { id := "B"
    orderID := "ORD-1"
    customerID := "CUST-1"
    amount := { amount := 1000, currency := "USD" }
    status := .pending
    providerRef := ""
    failureReason := ""
    idempotencyKey := "K1"
    createdAt := 3
    updatedAt := 3
    version := 1
    events := [.initiated { paymentID := "B"
                            orderID := "ORD-1"
                            amount := 1000
                            currency := "USD"
                            occurredAt := 3 }] }

/-- A well-formed initiation request under idempotency key "K1". -/
def sampleReq : InitiatePaymentRequest :=
  { orderID := "ORD-1"
    customerID := "CUST-1"
    amountCents := 1000
    currency := "USD"
    idempotencyKey := "K1" }

/-- The request of spec scenario 5: 4-character currency "EURO". -/
def reqEuro : InitiatePaymentRequest :=
  { orderID := "ORD-1"
    customerID := "CUST-1"
    amountCents := 1000
    currency := "EURO"
    idempotencyKey := "K1" }

/-- A marshal oracle that always succeeds (Go's `json.Marshal` cannot fail
on `PaymentInitiated`); the payload is a field concatenation. -/
def marshalEvent : Event → Except Unit String
  | .initiated e =>
    .ok (e.paymentID ++ "|" ++ e.orderID ++ "|" ++ toString e.amount ++ "|"
      ++ e.currency ++ "|" ++ toString e.occurredAt)

/-- An insert oracle under which no outbox insert fails. -/
def noInsertFailure : Nat → Bool := fun _ => false

end GoPay

/-! ## Claims C7, C8, C9 -/

namespace GoPay

/-- C7: `NewMoney` rejects non-positive amounts and currencies whose trimmed
form does not have length 3; every accepted input yields the given positive
amount and the trimmed, uppercased, length-3 currency ("usd" becomes "USD"). -/
theorem newMoney_invariants (amount : Int) (currency : String) :
    (amount ≤ 0 → ∃ msg, NewMoney amount currency = .error msg) ∧
    ((goTrimSpace currency).length ≠ 3 → ∃ msg, NewMoney amount currency = .error msg) ∧
    (∀ m, NewMoney amount currency = .ok m →
      m.amount = amount ∧ 0 < m.amount ∧
      m.currency = goToUpper (goTrimSpace currency) ∧ m.currency.length = 3) := by
  have hlen : (goToUpper (goTrimSpace currency)).length = (goTrimSpace currency).length :=
    List.length_map _ _
  refine ⟨?_, ?_, ?_⟩
  · intro h
    exact ⟨"amount must be positive", by rw [NewMoney, if_pos h]⟩
  · intro h
    by_cases ha : amount ≤ 0
    · exact ⟨"amount must be positive", by rw [NewMoney, if_pos ha]⟩
    · refine ⟨"currency must be a 3-letter", ?_⟩
      rw [NewMoney, if_neg ha]
      simp only
      rw [if_pos (by simpa [hlen] using h)]
  · intro m hm
    by_cases ha : amount ≤ 0
    · simp [NewMoney, ha] at hm
    · rw [NewMoney, if_neg ha] at hm
      simp only at hm
      by_cases hc : (goToUpper (goTrimSpace currency)).length ≠ 3
      · rw [if_pos hc] at hm
        exact absurd hm (by simp)
      · rw [if_neg hc] at hm
        push_neg at hc
        cases hm
        refine ⟨rfl, ?_, rfl, hc⟩
        show (0 : Int) < amount
        omega

/-- C7 witness: concrete run of `newMoney_invariants` at amount 1000 and
currency " usd ". -/
theorem newMoney_invariants_witness :
    Money.amount { amount := 1000, currency := "USD" } = 1000 ∧
    0 < Money.amount { amount := 1000, currency := "USD" : Money } ∧
    Money.currency { amount := 1000, currency := "USD" : Money }
      = goToUpper (goTrimSpace " usd ") ∧
    String.length (Money.currency { amount := 1000, currency := "USD" : Money }) = 3 :=
  (newMoney_invariants 1000 " usd ").2.2 { amount := 1000, currency := "USD" } rfl

/-- C8: `New` rejects empty (or whitespace-only) order id, customer id and
idempotency key; on success it yields the fresh identifier, status PENDING,
creation and update stamps equal to the current instant, version 1, and
exactly one buffered payment-initiated event carrying the identifier, the
order id, the amount, the currency and the creation time. -/
theorem new_payment_spec (orderID customerID idempotencyKey freshID : String)
    (m : Money) (now : Nat) :
    ((goTrimSpace orderID = "" ∨ goTrimSpace customerID = "" ∨
        goTrimSpace idempotencyKey = "") →
      ∃ msg, New orderID customerID m idempotencyKey freshID now = .error msg) ∧
    (goTrimSpace orderID ≠ "" → goTrimSpace customerID ≠ "" →
      goTrimSpace idempotencyKey ≠ "" →
      New orderID customerID m idempotencyKey freshID now =
        .ok { id := freshID
              orderID := orderID
              customerID := customerID
              amount := m
              status := .pending
              providerRef := ""
              failureReason := ""
              idempotencyKey := idempotencyKey
              createdAt := now
              updatedAt := now
              version := 1
              events := [.initiated { paymentID := freshID
                                      orderID := orderID
                                      amount := m.amount
                                      currency := m.currency
                                      occurredAt := now }] }) := by
  constructor
  · rintro (h | h | h)
    · exact ⟨"orderID is required", by rw [New, if_pos h]⟩
    · by_cases h1 : goTrimSpace orderID = ""
      · exact ⟨"orderID is required", by rw [New, if_pos h1]⟩
      · exact ⟨"customerID is required", by rw [New, if_neg h1, if_pos h]⟩
    · by_cases h1 : goTrimSpace orderID = ""
      · exact ⟨"orderID is required", by rw [New, if_pos h1]⟩
      · by_cases h2 : goTrimSpace customerID = ""
        · exact ⟨"customerID is required", by rw [New, if_neg h1, if_pos h2]⟩
        · exact ⟨"idempotencyKey is required",
            by rw [New, if_neg h1, if_neg h2, if_pos h]⟩
  · intro h1 h2 h3
    simp [New, h1, h2, h3]

/-- C8 witness: concrete run of `new_payment_spec` on customary inputs. -/
theorem new_payment_spec_witness :
    New "ORD-1" "CUST-1" { amount := 1000, currency := "USD" } "K1" "pid-1" 7 =
      .ok { id := "pid-1"
            orderID := "ORD-1"
            customerID := "CUST-1"
            amount := { amount := 1000, currency := "USD" }
            status := .pending
            providerRef := ""
            failureReason := ""
            idempotencyKey := "K1"
            createdAt := 7
            updatedAt := 7
            version := 1
            events := [.initiated { paymentID := "pid-1"
                                    orderID := "ORD-1"
                                    amount := 1000
                                    currency := "USD"
                                    occurredAt := 7 }] } :=
  (new_payment_spec "ORD-1" "CUST-1" "K1" "pid-1"
      { amount := 1000, currency := "USD" } 7).2
    (by decide) (by decide) (by decide)

/-- C9: `PopEvents` returns the buffered events in append order and empties
the buffer; a second call with no intervening mutation returns the empty
sequence. -/
theorem popEvents_drains (p : Payment) :
    (PopEvents p).1 = p.events ∧
    (PopEvents p).2.events = [] ∧
    (PopEvents (PopEvents p).2).1 = [] :=
  ⟨rfl, rfl, rfl⟩

end GoPay

/-! ## Store lemmas and claims C2, C10, C3 -/

namespace GoPay

/-- Updating the matching row in place keeps it the first match of the
identifier search. -/
theorem find_update_row (dbNow : Nat) (p : Payment) (rows : List Row) (row : Row)
    (h : rows.find? (fun r => r.id == p.id) = some row) :
    (rows.map fun r => if r.id == p.id then applyUpdate dbNow p r else r).find?
        (fun r => r.id == p.id) = some (applyUpdate dbNow p row) := by
  induction rows with
  | nil => simp at h
  | cons a t ih =>
    rw [List.find?_cons] at h
    by_cases ha : (a.id == p.id) = true
    · rw [ha] at h
      simp only at h
      injection h with h
      subst h
      have hid : ((applyUpdate dbNow p a).id == p.id) = true := by
        simpa [applyUpdate] using ha
      simp only [List.map_cons, if_pos ha, List.find?_cons, hid]
    · have ha' : (a.id == p.id) = false := by
        simpa using ha
      rw [ha'] at h
      simp only at h
      simp only [List.map_cons, List.find?_cons]
      have hcond : ((if (a.id == p.id) = true then applyUpdate dbNow p a else a).id
          == p.id) = false := by
        rw [if_neg (by simp [ha'])]
        exact ha'
      rw [hcond]
      exact ih h

/-- A successful upsert leaves a row carrying the incoming version under the
aggregate's identifier. -/
theorem upsert_ok_version (dbNow : Nat) (p : Payment) (rows rows' : List Row)
    (h : upsertPayment dbNow p rows = .ok rows') :
    ∃ r, rows'.find? (fun r => r.id == p.id) = some r ∧ r.version = p.version := by
  unfold upsertPayment at h
  cases hf : rows.find? (fun r => r.id == p.id) with
  | some row =>
    rw [hf] at h
    simp only at h
    by_cases hv : row.version = p.version - 1
    · rw [if_pos hv] at h
      cases h
      exact ⟨applyUpdate dbNow p row, find_update_row dbNow p rows row hf, rfl⟩
    · rw [if_neg hv] at h
      exact absurd h (by simp)
  | none =>
    rw [hf] at h
    simp only at h
    by_cases hc : p.amount.amount ≤ 0
    · simp [hc] at h
    · rw [if_neg hc] at h
      by_cases hk : rows.any (fun r => r.idempotencyKey == p.idempotencyKey) = true
      · simp [hk] at h
      · rw [if_neg hk] at h
        cases h
        refine ⟨rowOfPayment p, ?_, rfl⟩
        rw [List.find?_append, hf]
        simp [rowOfPayment]

/-- A successful `Save` commits exactly the rows produced by the upsert. -/
theorem save_ok_upsert (mar : Event → Except Unit String) (insf : Nat → Bool)
    (dbNow : Nat) (p : Payment) (db db' : DB) (p' : Payment)
    (h : Save mar insf dbNow p db = (.ok (), db', p')) :
    ∃ rows, upsertPayment dbNow p db.payments = .ok rows ∧ db'.payments = rows := by
  unfold Save at h
  cases hU : upsertPayment dbNow p db.payments with
  | error e => rw [hU] at h; simp at h
  | ok rows =>
    rw [hU] at h
    simp only at h
    cases hW : writeOutboxEvents mar insf dbNow p db.outbox with
    | mk res q =>
      rw [hW] at h
      cases res with
      | error e => simp at h
      | ok outbox =>
        simp only at h
        cases h
        exact ⟨rows, rfl, rfl⟩

/-- C2: the upsert accepts an update only when the stored version equals the
incoming version minus one; a failed check yields `versionConflict` with the
store unchanged; a first insert (version 1, no row with that identifier,
positive amount, no duplicate idempotency key) succeeds; and of two saves
carrying the same version against the same identifier at most one succeeds
— the trailing one observes `versionConflict`. -/
theorem upsertPayment_version_check (mar : Event → Except Unit String)
    (insf : Nat → Bool) (dbNow dbNow' : Nat) (p q : Payment) (db : DB) :
    (∀ row, db.payments.find? (fun r => r.id == p.id) = some row →
      row.version ≠ p.version - 1 →
      upsertPayment dbNow p db.payments = .error .versionConflict ∧
      Save mar insf dbNow p db = (.error .versionConflict, db, p)) ∧
    (∀ row, db.payments.find? (fun r => r.id == p.id) = some row →
      row.version = p.version - 1 →
      upsertPayment dbNow p db.payments =
        .ok (db.payments.map fun r =>
          if r.id == p.id then applyUpdate dbNow p r else r)) ∧
    (db.payments.find? (fun r => r.id == p.id) = none →
      p.version = 1 →
      0 < p.amount.amount →
      db.payments.any (fun r => r.idempotencyKey == p.idempotencyKey) = false →
      upsertPayment dbNow p db.payments = .ok (db.payments ++ [rowOfPayment p])) ∧
    (p.id = q.id → p.version = q.version →
      ∀ db' p₁, Save mar insf dbNow p db = (.ok (), db', p₁) →
      (Save mar insf dbNow' q db').1 = .error .versionConflict) := by
  refine ⟨?_, ?_, ?_, ?_⟩
  · intro row hfind hne
    have hup : upsertPayment dbNow p db.payments = .error .versionConflict := by
      unfold upsertPayment
      rw [hfind]
      simp only
      rw [if_neg hne]
    refine ⟨hup, ?_⟩
    unfold Save
    rw [hup]
  · intro row hfind heq
    unfold upsertPayment
    rw [hfind]
    simp only
    rw [if_pos heq]
  · intro hfind _ hpos hkey
    unfold upsertPayment
    rw [hfind]
    simp only
    rw [if_neg (by omega), if_neg (by simp [hkey])]
  · intro hid hver db' p₁ hsave
    obtain ⟨rows, hup, hrows⟩ := save_ok_upsert mar insf dbNow p db db' p₁ hsave
    obtain ⟨r, hfind, hrv⟩ := upsert_ok_version dbNow p db.payments rows hup
    have hfind' : db'.payments.find? (fun s => s.id == q.id) = some r := by
      rw [hrows, ← hid]
      exact hfind
    have hup' : upsertPayment dbNow' q db'.payments = .error .versionConflict := by
      unfold upsertPayment
      rw [hfind']
      simp only
      rw [if_neg (by omega)]
    unfold Save
    rw [hup']

/-- C2 witness: a save carrying version 2 against a stored row already at
version 2 is rejected with `versionConflict`. -/
theorem upsertPayment_version_check_witness :
    upsertPayment 9 sampleUpdater [sampleRow] = .error .versionConflict :=
  ((upsertPayment_version_check marshalEvent noInsertFailure 9 9 sampleUpdater
      sampleUpdater { payments := [sampleRow], outbox := [] }).1
    sampleRow rfl (by decide)).1

end GoPay

namespace GoPay

/-- C10: on the update path (a row with the aggregate's identifier already
exists and the version check passes), every stored row keeps its identifier,
order reference, customer reference, amount, currency, idempotency key and
created-at; only status, provider reference, failure reason, updated-at and
version may change. -/
theorem upsert_update_frame (dbNow : Nat) (p : Payment) (rows rows' : List Row)
    (row : Row)
    (hfind : rows.find? (fun r => r.id == p.id) = some row)
    (hok : upsertPayment dbNow p rows = .ok rows') :
    ∃ g : Row → Row, rows' = rows.map g ∧
      ∀ r : Row, (g r).id = r.id ∧ (g r).orderID = r.orderID ∧
        (g r).customerID = r.customerID ∧ (g r).amountCents = r.amountCents ∧
        (g r).currency = r.currency ∧ (g r).idempotencyKey = r.idempotencyKey ∧
        (g r).createdAt = r.createdAt := by
  unfold upsertPayment at hok
  rw [hfind] at hok
  simp only at hok
  by_cases hv : row.version = p.version - 1
  · rw [if_pos hv] at hok
    injection hok with hok
    refine ⟨_, hok.symm, ?_⟩
    intro r
    by_cases hr : (r.id == p.id) = true
    · rw [if_pos hr]
      exact ⟨rfl, rfl, rfl, rfl, rfl, rfl, rfl⟩
    · rw [if_neg hr]
      exact ⟨rfl, rfl, rfl, rfl, rfl, rfl, rfl⟩
  · rw [if_neg hv] at hok
    exact absurd hok (by simp)

/-- C10 witness: concrete update of a stored version-1 row by a version-2
aggregate, with the frame fields preserved. -/
theorem upsert_update_frame_witness :
    ∃ rows' : List Row,
      upsertPayment 9 sampleUpdater [{ sampleRow with version := 1 }] = .ok rows' ∧
      ∃ g : Row → Row, rows' = [{ sampleRow with version := 1 }].map g ∧
        ∀ r : Row, (g r).id = r.id ∧ (g r).orderID = r.orderID ∧
          (g r).customerID = r.customerID ∧ (g r).amountCents = r.amountCents ∧
          (g r).currency = r.currency ∧ (g r).idempotencyKey = r.idempotencyKey ∧
          (g r).createdAt = r.createdAt :=
  ⟨_, rfl, upsert_update_frame 9 sampleUpdater [{ sampleRow with version := 1 }]
    _ { sampleRow with version := 1 } rfl rfl⟩

/-- A successful run of the outbox insert loop marshaled every event. -/
theorem writeEventsLoop_ok_marshal (mar : Event → Except Unit String)
    (insf : Nat → Bool) (dbNow : Nat) (aggID : String) (events : List Event) :
    ∀ (i : Nat) (outbox outbox' : List OutboxRow),
      writeEventsLoop mar insf dbNow aggID events i outbox = .ok outbox' →
      ∀ ev ∈ events, ∃ s, mar ev = .ok s := by
  induction events with
  | nil =>
    intro i outbox outbox' h ev hev
    simp at hev
  | cons e rest ih =>
    intro i outbox outbox' h ev hev
    unfold writeEventsLoop at h
    cases hm : mar e with
    | error u => rw [hm] at h; simp at h
    | ok payload =>
      rw [hm] at h
      simp only at h
      by_cases hf : insf i = true
      · rw [if_pos hf] at h
        simp at h
      · rw [if_neg hf] at h
        rcases List.mem_cons.mp hev with heq | hev'
        · exact ⟨payload, heq ▸ hm⟩
        · exact ih (i + 1) _ outbox' h ev hev'

/-- A successful run of the outbox insert loop hit no failing insert. -/
theorem writeEventsLoop_ok_insf (mar : Event → Except Unit String)
    (insf : Nat → Bool) (dbNow : Nat) (aggID : String) (events : List Event) :
    ∀ (i : Nat) (outbox outbox' : List OutboxRow),
      writeEventsLoop mar insf dbNow aggID events i outbox = .ok outbox' →
      ∀ j, j < events.length → insf (i + j) = false := by
  induction events with
  | nil =>
    intro i outbox outbox' h j hj
    simp at hj
  | cons e rest ih =>
    intro i outbox outbox' h j hj
    unfold writeEventsLoop at h
    cases hm : mar e with
    | error u => rw [hm] at h; simp at h
    | ok payload =>
      rw [hm] at h
      simp only at h
      by_cases hf : insf i = true
      · rw [if_pos hf] at h
        simp at h
      · rw [if_neg hf] at h
        cases j with
        | zero => simpa using Bool.eq_false_iff.mpr hf
        | succ j' =>
          have hj' : j' < rest.length := by
            simpa [Nat.succ_lt_succ_iff] using hj
          have := ih (i + 1) _ outbox' h j' hj'
          rwa [show i + 1 + j' = i + (j' + 1) from by omega] at this

/-- A successful run of the outbox insert loop appended exactly one row per
event, in order, for this aggregate. -/
theorem writeEventsLoop_ok_rows (mar : Event → Except Unit String)
    (insf : Nat → Bool) (dbNow : Nat) (aggID : String) (events : List Event) :
    ∀ (i : Nat) (outbox outbox' : List OutboxRow),
      writeEventsLoop mar insf dbNow aggID events i outbox = .ok outbox' →
      ∃ payloads : List String, payloads.length = events.length ∧
        outbox' = outbox ++ (events.zip payloads).map (fun ep =>
          { aggregateID := aggID, eventType := eventTypeOf ep.1,
            payload := ep.2, createdAt := dbNow }) := by
  induction events with
  | nil =>
    intro i outbox outbox' h
    unfold writeEventsLoop at h
    injection h with h
    exact ⟨[], rfl, by simp [h]⟩
  | cons e rest ih =>
    intro i outbox outbox' h
    unfold writeEventsLoop at h
    cases hm : mar e with
    | error u => rw [hm] at h; simp at h
    | ok payload =>
      rw [hm] at h
      simp only at h
      by_cases hf : insf i = true
      · rw [if_pos hf] at h
        simp at h
      · rw [if_neg hf] at h
        obtain ⟨ps, hlen, hout⟩ := ih (i + 1) _ outbox' h
        refine ⟨payload :: ps, by simp [hlen], ?_⟩
        rw [hout]
        simp [List.append_assoc]

/-- C3: the payment upsert and the outbox inserts of `Save` form one atomic
unit: any failure (marshal failure, failed outbox insert, version-check
failure) rolls the whole transaction back, leaving the database exactly as
before; on success the committed state carries the upserted rows and the
outbox gains exactly one row per event buffered at save time. -/
theorem save_outbox_atomic (mar : Event → Except Unit String) (insf : Nat → Bool)
    (dbNow : Nat) (p : Payment) (db : DB) :
    (∀ e db' p', Save mar insf dbNow p db = (.error e, db', p') → db' = db) ∧
    ((∃ ev ∈ p.events, ∀ s, mar ev ≠ .ok s) →
      ∀ db' p', Save mar insf dbNow p db ≠ (.ok (), db', p')) ∧
    ((∃ j, j < p.events.length ∧ insf j = true) →
      ∀ db' p', Save mar insf dbNow p db ≠ (.ok (), db', p')) ∧
    (∀ row, db.payments.find? (fun r => r.id == p.id) = some row →
      row.version ≠ p.version - 1 →
      Save mar insf dbNow p db = (.error .versionConflict, db, p)) ∧
    (∀ db' p', Save mar insf dbNow p db = (.ok (), db', p') →
      (∃ rows, upsertPayment dbNow p db.payments = .ok rows ∧
        db'.payments = rows) ∧
      (∃ payloads : List String, payloads.length = p.events.length ∧
        db'.outbox = db.outbox ++ (p.events.zip payloads).map (fun ep =>
          { aggregateID := p.id, eventType := eventTypeOf ep.1,
            payload := ep.2, createdAt := dbNow }))) := by
  have hW : ∀ res p₁, writeOutboxEvents mar insf dbNow p db.outbox = (res, p₁) →
      res = .ok db.outbox ∧ p.events = [] ∨
      (p.events ≠ [] ∧
        writeEventsLoop mar insf dbNow p.id p.events 0 db.outbox = res) := by
    intro res p₁ h
    unfold writeOutboxEvents PopEvents at h
    cases hev : p.events with
    | nil =>
      rw [hev] at h
      simp only [List.isEmpty_nil, if_pos] at h
      injection h with h1 h2
      exact Or.inl ⟨h1.symm, rfl⟩
    | cons e rest =>
      rw [hev] at h
      simp only [List.isEmpty_cons] at h
      rw [if_neg (by simp)] at h
      injection h with h1 h2
      exact Or.inr ⟨by simp, h1⟩
  refine ⟨?_, ?_, ?_, ?_, ?_⟩
  · intro e db' p' h
    unfold Save at h
    cases hU : upsertPayment dbNow p db.payments with
    | error e' =>
      rw [hU] at h
      injection h with h1 h2
      injection h2 with h2 h3
      exact h2.symm
    | ok rows =>
      rw [hU] at h
      simp only at h
      cases hWr : writeOutboxEvents mar insf dbNow p db.outbox with
      | mk res q =>
        rw [hWr] at h
        cases res with
        | error e' =>
          injection h with h1 h2
          injection h2 with h2 h3
          exact h2.symm
        | ok outbox => simp at h
  · rintro ⟨ev, hmem, hbad⟩ db' p' h
    unfold Save at h
    cases hU : upsertPayment dbNow p db.payments with
    | error e' => rw [hU] at h; simp at h
    | ok rows =>
      rw [hU] at h
      simp only at h
      cases hWr : writeOutboxEvents mar insf dbNow p db.outbox with
      | mk res q =>
        rw [hWr] at h
        cases res with
        | error e' => simp at h
        | ok outbox =>
          rcases hW _ _ hWr with ⟨_, hnil⟩ | ⟨hne, hloop⟩
          · rw [hnil] at hmem
            simp at hmem
          · obtain ⟨s, hs⟩ :=
              writeEventsLoop_ok_marshal mar insf dbNow p.id p.events 0
                db.outbox outbox hloop ev hmem
            exact hbad s hs
  · rintro ⟨j, hj, hfail⟩ db' p' h
    unfold Save at h
    cases hU : upsertPayment dbNow p db.payments with
    | error e' => rw [hU] at h; simp at h
    | ok rows =>
      rw [hU] at h
      simp only at h
      cases hWr : writeOutboxEvents mar insf dbNow p db.outbox with
      | mk res q =>
        rw [hWr] at h
        cases res with
        | error e' => simp at h
        | ok outbox =>
          rcases hW _ _ hWr with ⟨_, hnil⟩ | ⟨hne, hloop⟩
          · rw [hnil] at hj
            simp at hj
          · have := writeEventsLoop_ok_insf mar insf dbNow p.id p.events 0
              db.outbox outbox hloop j hj
            rw [Nat.zero_add] at this
            rw [this] at hfail
            exact Bool.false_ne_true hfail
  · intro row hfind hne
    have hup : upsertPayment dbNow p db.payments = .error .versionConflict := by
      unfold upsertPayment
      rw [hfind]
      simp only
      rw [if_neg hne]
    unfold Save
    rw [hup]
  · intro db' p' h
    refine ⟨save_ok_upsert mar insf dbNow p db db' p' h, ?_⟩
    unfold Save at h
    cases hU : upsertPayment dbNow p db.payments with
    | error e' => rw [hU] at h; simp at h
    | ok rows =>
      rw [hU] at h
      simp only at h
      cases hWr : writeOutboxEvents mar insf dbNow p db.outbox with
      | mk res q =>
        rw [hWr] at h
        cases res with
        | error e' => simp at h
        | ok outbox =>
          simp only at h
          injection h with h1 h2
          injection h2 with h2 h3
          rcases hW _ _ hWr with ⟨hok, hnil⟩ | ⟨hne, hloop⟩
          · injection hok with hok
            refine ⟨[], by simp [hnil], ?_⟩
            rw [← h2]
            simp [hnil, hok]
          · obtain ⟨ps, hlen, hout⟩ :=
              writeEventsLoop_ok_rows mar insf dbNow p.id p.events 0
                db.outbox outbox hloop
            refine ⟨ps, hlen, ?_⟩
            rw [← h2]
            simpa using hout

/-- C3 witness: a concrete successful save of a fresh aggregate with one
buffered event commits the inserted row and exactly one outbox row. -/
theorem save_outbox_atomic_witness :
    ∃ db' : DB, ∃ p' : Payment,
      Save marshalEvent noInsertFailure 9 sampleFresh
          { payments := [], outbox := [] } = (.ok (), db', p') ∧
      ((∃ rows, upsertPayment 9 sampleFresh [] = .ok rows ∧
          db'.payments = rows) ∧
       (∃ payloads : List String, payloads.length = sampleFresh.events.length ∧
         db'.outbox = [] ++ (sampleFresh.events.zip payloads).map (fun ep =>
           { aggregateID := sampleFresh.id, eventType := eventTypeOf ep.1,
             payload := ep.2, createdAt := 9 }))) :=
  ⟨_, _, rfl, (save_outbox_atomic marshalEvent noInsertFailure 9 sampleFresh
      { payments := [], outbox := [] }).2.2.2.2 _ _ rfl⟩

end GoPay

/-! ## Claims C4, C5 -/

namespace GoPay

/-- C4 (divergence witness): on the creation path, when a concurrent
duplicate request has already stored an aggregate under the same idempotency
key (here row "A" under key "K1", inserted after the authoritative lookup
returned nothing), `Save` fails with the uniqueness violation and the
orchestrator propagates the wrapped error — it performs no re-fetch by
idempotency key and does not return the existing aggregate's
identifier/status, contrary to the claim. -/
theorem initiate_no_refetch_on_unique_violation :
    createAndSave failingCache marshalEvent noInsertFailure "B" 3 sampleReq ()
        { payments := [{ sampleRow with idempotencyKey := "K1" }], outbox := [] }
      = (.error (.saveFailed .uniqueKeyViolation), (),
         { payments := [{ sampleRow with idempotencyKey := "K1" }], outbox := [] },
         { findCalls := 0, saveCalls := 1, outboxWriteCalls := 0 }) := rfl

/-- Whenever `Validate` accepts, the amount is positive. -/
theorem validate_ok_amount (req : InitiatePaymentRequest)
    (h : Validate req = .ok ()) : ¬ req.amountCents ≤ 0 := by
  unfold Validate at h
  by_cases h1 : req.orderID = ""
  · rw [if_pos h1] at h
    exact absurd h (by simp)
  · rw [if_neg h1] at h
    by_cases h2 : req.customerID = ""
    · rw [if_pos h2] at h
      exact absurd h (by simp)
    · rw [if_neg h2] at h
      by_cases h3 : req.amountCents ≤ 0
      · rw [if_pos h3] at h
        exact absurd h (by simp)
      · exact h3

/-- C5 counterexample: for the request with currency "EURO" (4 characters,
otherwise well formed) over an empty store and an unavailable cache, the
operation does consult the store — `FindByIdempotencyKey` is invoked once
before the failure — and the failure surfaces as the wrapped `NewMoney`
error from inside the service, not as a fail-fast validation error with no
store access. -/
theorem initiate_currency_len4_reaches_store :
    (handleInitiatePayment failingCache marshalEvent noInsertFailure "B" 3
        reqEuro () { payments := [], outbox := [] }).2.2.2.findCalls = 1 ∧
    (handleInitiatePayment failingCache marshalEvent noInsertFailure "B" 3
        reqEuro () { payments := [], outbox := [] }).1
      = .error (.service (.invalidMoney "currency must be a 3-letter")) :=
  ⟨rfl, rfl⟩

/-- C5 (amended): a request rejected by `Validate` (empty order id, customer
id, currency or idempotency key, or non-positive amount) fails fast with a
validation error and no store access — neither `FindByIdempotencyKey` nor
`Save` runs; a nonempty currency whose normalized length is not 3 passes
`Validate` and fails only at Money construction, after one
`FindByIdempotencyKey` call and with no `Save`. -/
theorem validate_fail_fast {κ : Type} (C : CacheOps κ)
    (mar : Event → Except Unit String) (insf : Nat → Bool) (freshID : String)
    (now : Nat) (req : InitiatePaymentRequest) (cache : κ) (db : DB) :
    (∀ msg, Validate req = .error msg →
      handleInitiatePayment C mar insf freshID now req cache db
        = (.error (.validation msg), cache, db,
           { findCalls := 0, saveCalls := 0, outboxWriteCalls := 0 })) ∧
    (Validate req = .ok () →
      (goToUpper (goTrimSpace req.currency)).length ≠ 3 →
      (∀ r, (C.get cache req.idempotencyKey).2 ≠ .ok (some (some r))) →
      FindByIdempotencyKey req.idempotencyKey db = .ok none →
      handleInitiatePayment C mar insf freshID now req cache db
        = (.error (.service (.invalidMoney "currency must be a 3-letter")),
           (C.get cache req.idempotencyKey).1, db,
           { findCalls := 1, saveCalls := 0, outboxWriteCalls := 0 })) := by
  constructor
  · intro msg hv
    unfold handleInitiatePayment
    rw [hv]
  · intro hv hlen hmiss hfind
    have hmoney : NewMoney req.amountCents req.currency
        = .error "currency must be a 3-letter" := by
      unfold NewMoney
      rw [if_neg (validate_ok_amount req hv)]
      simp only
      rw [if_pos hlen]
    unfold handleInitiatePayment
    rw [hv]
    simp only
    unfold InitiatePayment
    simp only
    rcases hg : (C.get cache req.idempotencyKey).2 with u | o
    · rw [hfind]
      unfold createAndSave
      rw [hmoney]
    · rcases o with _ | o'
      · rw [hfind]
        unfold createAndSave
        rw [hmoney]
      · rcases o' with _ | r
        · rw [hfind]
          unfold createAndSave
          rw [hmoney]
        · exact absurd hg (hmiss r)

/-- C5 witness: the fail-fast half at an empty order id, and the
store-reaching half at currency "EURO". -/
theorem validate_fail_fast_witness :
    handleInitiatePayment failingCache marshalEvent noInsertFailure "B" 3
        { orderID := "", customerID := "CUST-1", amountCents := 1000,
          currency := "USD", idempotencyKey := "K1" } ()
        { payments := [], outbox := [] }
      = (.error (.validation "order_id is required"), (),
         { payments := [], outbox := [] },
         { findCalls := 0, saveCalls := 0, outboxWriteCalls := 0 }) ∧
    handleInitiatePayment failingCache marshalEvent noInsertFailure "B" 3
        reqEuro () { payments := [], outbox := [] }
      = (.error (.service (.invalidMoney "currency must be a 3-letter")), (),
         { payments := [], outbox := [] },
         { findCalls := 1, saveCalls := 0, outboxWriteCalls := 0 }) :=
  ⟨(validate_fail_fast failingCache marshalEvent noInsertFailure "B" 3
      { orderID := "", customerID := "CUST-1", amountCents := 1000,
        currency := "USD", idempotencyKey := "K1" } ()
      { payments := [], outbox := [] }).1 "order_id is required" rfl,
   (validate_fail_fast failingCache marshalEvent noInsertFailure "B" 3
      reqEuro () { payments := [], outbox := [] }).2 rfl (by decide)
      (fun r h => Except.noConfusion h) rfl⟩

end GoPay

/-! ## Claim C6 -/

namespace GoPay

/-- `writeOutboxEvents` always hands back the aggregate with a drained
buffer, having called `PopEvents` unconditionally. -/
theorem writeOutbox_snd (mar : Event → Except Unit String) (insf : Nat → Bool)
    (dbNow : Nat) (p : Payment) (ob : List OutboxRow) :
    (writeOutboxEvents mar insf dbNow p ob).2 = { p with events := [] } := by
  unfold writeOutboxEvents
  simp only [PopEvents]
  by_cases h : p.events.isEmpty
  · rw [if_pos h]
  · rw [if_neg h]

/-- A successful `Save` returns the aggregate with an emptied buffer. -/
theorem save_ok_third (mar : Event → Except Unit String) (insf : Nat → Bool)
    (dbNow : Nat) (p : Payment) (db db' : DB) (p' : Payment)
    (h : Save mar insf dbNow p db = (.ok (), db', p')) :
    p' = { p with events := [] } := by
  unfold Save at h
  cases hU : upsertPayment dbNow p db.payments with
  | error e => rw [hU] at h; simp at h
  | ok rows =>
    rw [hU] at h
    simp only at h
    cases hWr : writeOutboxEvents mar insf dbNow p db.outbox with
    | mk res q =>
      rw [hWr] at h
      cases res with
      | error e => simp at h
      | ok outbox =>
        simp only at h
        injection h with h1 h2
        injection h2 with h2 h3
        rw [← h3]
        have hq := writeOutbox_snd mar insf dbNow p db.outbox
        rw [hWr] at hq
        exact hq

/-- Every run of the creation tail performs zero orchestrator-level outbox
writes: the post-save loop is dead. -/
theorem createAndSave_dead_loop {κ : Type} (C : CacheOps κ)
    (mar : Event → Except Unit String) (insf : Nat → Bool) (freshID : String)
    (now : Nat) (req : InitiatePaymentRequest) (cache : κ) (db : DB) :
    (createAndSave C mar insf freshID now req cache db).2.2.2.outboxWriteCalls
      = 0 := by
  unfold createAndSave
  split
  · rfl
  · split
    · rfl
    · split
      · rfl
      · next a db₁ p₁ heq =>
        cases a
        rw [save_ok_third _ _ _ _ _ _ _ heq]
        rfl

/-- Every run of `InitiatePayment` performs zero orchestrator-level outbox
writes. -/
theorem initiate_dead_loop {κ : Type} (C : CacheOps κ)
    (mar : Event → Except Unit String) (insf : Nat → Bool) (freshID : String)
    (now : Nat) (req : InitiatePaymentRequest) (cache : κ) (db : DB) :
    (InitiatePayment C mar insf freshID now req cache db).2.2.2.outboxWriteCalls
      = 0 := by
  unfold InitiatePayment
  simp only
  rcases hg : (C.get cache req.idempotencyKey).2 with u | o
  · cases hf : FindByIdempotencyKey req.idempotencyKey db with
    | error e => rfl
    | ok oo =>
      cases oo with
      | some ex => rfl
      | none =>
        exact createAndSave_dead_loop C mar insf freshID now req _ db
  · rcases o with _ | o'
    · cases hf : FindByIdempotencyKey req.idempotencyKey db with
      | error e => rfl
      | ok oo =>
        cases oo with
        | some ex => rfl
        | none =>
          exact createAndSave_dead_loop C mar insf freshID now req _ db
    · rcases o' with _ | r
      · cases hf : FindByIdempotencyKey req.idempotencyKey db with
        | error e => rfl
        | ok oo =>
          cases oo with
          | some ex => rfl
          | none =>
            exact createAndSave_dead_loop C mar insf freshID now req _ db
      · rfl

/-- C6: after a successful `Save`, the aggregate's buffer is already drained
(it was emptied inside the transaction to build the outbox rows), so the
orchestrator's post-save `PopEvents` returns the empty sequence, its
marshal-and-write loop runs zero iterations, and the orchestrator-level
`OutboxWriter.Write` is never invoked on any `InitiatePayment` path. -/
theorem post_save_event_loop_dead {κ : Type} (C : CacheOps κ)
    (mar : Event → Except Unit String) (insf : Nat → Bool) (freshID : String)
    (now dbNow : Nat) (p : Payment) (db dbS : DB)
    (req : InitiatePaymentRequest) (cache : κ) :
    (∀ db' p', Save mar insf dbNow p dbS = (.ok (), db', p') →
      (PopEvents p').1 = []) ∧
    (∀ res c' db₂ tr,
      InitiatePayment C mar insf freshID now req cache db = (res, c', db₂, tr) →
      tr.outboxWriteCalls = 0) := by
  constructor
  · intro db' p' h
    rw [save_ok_third mar insf dbNow p dbS db' p' h]
    rfl
  · intro res c' db₂ tr h
    have htr : tr = (InitiatePayment C mar insf freshID now req cache db).2.2.2 := by
      rw [h]
    rw [htr]
    exact initiate_dead_loop C mar insf freshID now req cache db

/-- C6 witness: a concrete successful save of a fresh aggregate drains the
buffer, and a concrete full `InitiatePayment` run performs no
orchestrator-level outbox write. -/
theorem post_save_event_loop_dead_witness :
    (∃ db' : DB, ∃ p' : Payment,
      Save marshalEvent noInsertFailure 9 sampleFresh
          { payments := [], outbox := [] } = (.ok (), db', p') ∧
      (PopEvents p').1 = []) ∧
    (∃ res c' db₂ tr,
      InitiatePayment failingCache marshalEvent noInsertFailure "B" 3 sampleReq
          () { payments := [], outbox := [] } = (res, c', db₂, tr) ∧
      tr.outboxWriteCalls = 0) :=
  ⟨⟨_, _, rfl,
    (post_save_event_loop_dead failingCache marshalEvent noInsertFailure "B" 3 9
        sampleFresh { payments := [], outbox := [] }
        { payments := [], outbox := [] } sampleReq ()).1 _ _ rfl⟩,
   ⟨_, _, _, _, rfl,
    (post_save_event_loop_dead failingCache marshalEvent noInsertFailure "B" 3 9
        sampleFresh { payments := [], outbox := [] }
        { payments := [], outbox := [] } sampleReq ()).2 _ _ _ _ rfl⟩⟩

end GoPay

/-! ## Claim C1: lemmas -/

namespace GoPay

/-- Field facts of an accepted `NewMoney`. -/
theorem newMoney_ok_fields (amount : Int) (currency : String) (m : Money)
    (h : NewMoney amount currency = .ok m) :
    m.amount = amount ∧ ¬ amount ≤ 0 ∧
    m.currency = goToUpper (goTrimSpace currency) := by
  by_cases ha : amount ≤ 0
  · simp [NewMoney, ha] at h
  · rw [NewMoney, if_neg ha] at h
    simp only at h
    by_cases hc : (goToUpper (goTrimSpace currency)).length ≠ 3
    · rw [if_pos hc] at h
      exact absurd h (by simp)
    · rw [if_neg hc] at h
      cases h
      exact ⟨rfl, ha, rfl⟩

/-- With every marshal succeeding and no failing insert, the outbox insert
loop succeeds. -/
theorem writeEventsLoop_total (mar : Event → Except Unit String)
    (insf : Nat → Bool) (dbNow : Nat) (aggID : String) (events : List Event) :
    ∀ (i : Nat) (outbox : List OutboxRow),
      (∀ e ∈ events, ∃ s, mar e = .ok s) → (∀ j, insf j = false) →
      ∃ out, writeEventsLoop mar insf dbNow aggID events i outbox = .ok out := by
  induction events with
  | nil =>
    intro i outbox _ _
    exact ⟨outbox, rfl⟩
  | cons e rest ih =>
    intro i outbox hmar hins
    obtain ⟨s, hs⟩ := hmar e (by simp)
    unfold writeEventsLoop
    rw [hs]
    simp only
    rw [if_neg (by simp [hins i])]
    exact ih (i + 1) _ (fun e' he' => hmar e' (by simp [he'])) hins

/-- Insertion path of `Save`: no stored row under the aggregate's identifier
or idempotency key, positive amount, healthy marshal and inserts — the save
commits the new row and drains the buffer. -/
theorem save_insert_ok (mar : Event → Except Unit String) (insf : Nat → Bool)
    (dbNow : Nat) (p : Payment) (db : DB)
    (hmar : ∀ e, ∃ s, mar e = .ok s) (hins : ∀ j, insf j = false)
    (hid : db.payments.find? (fun r => r.id == p.id) = none)
    (hpos : ¬ p.amount.amount ≤ 0)
    (hkey : db.payments.find?
      (fun r => r.idempotencyKey == p.idempotencyKey) = none) :
    ∃ out, Save mar insf dbNow p db =
      (.ok (), { payments := db.payments ++ [rowOfPayment p], outbox := out },
       { p with events := [] }) := by
  have hany : db.payments.any
      (fun r => r.idempotencyKey == p.idempotencyKey) = false :=
    List.any_eq_false.mpr (List.find?_eq_none.mp hkey)
  have hup : upsertPayment dbNow p db.payments
      = .ok (db.payments ++ [rowOfPayment p]) := by
    unfold upsertPayment
    rw [hid]
    simp only
    rw [if_neg hpos, if_neg (by simp [hany])]
  by_cases hev : p.events.isEmpty
  · refine ⟨db.outbox, ?_⟩
    have hWr : writeOutboxEvents mar insf dbNow p db.outbox
        = (.ok db.outbox, { p with events := [] }) := by
      unfold writeOutboxEvents
      simp only [PopEvents]
      rw [if_pos hev]
    unfold Save
    rw [hup]
    simp only
    rw [hWr]
  · obtain ⟨out, hloop⟩ := writeEventsLoop_total mar insf dbNow p.id p.events 0
      db.outbox (fun e _ => hmar e) hins
    refine ⟨out, ?_⟩
    have hWr : writeOutboxEvents mar insf dbNow p db.outbox
        = (.ok out, { p with events := [] }) := by
      unfold writeOutboxEvents
      simp only [PopEvents]
      rw [if_neg hev, hloop]
    unfold Save
    rw [hup]
    simp only
    rw [hWr]

/-- Cache fast path: a parseable cached hit is returned immediately, with no
repository access. -/
theorem initiate_cache_hit {κ : Type} (C : CacheOps κ)
    (mar : Event → Except Unit String) (insf : Nat → Bool) (freshID : String)
    (now : Nat) (req : InitiatePaymentRequest) (cache : κ) (db : DB)
    (resp : InitiatePaymentResponse)
    (hhit : (C.get cache req.idempotencyKey).2 = .ok (some (some resp))) :
    InitiatePayment C mar insf freshID now req cache db
      = (.ok resp, (C.get cache req.idempotencyKey).1, db,
         { findCalls := 0, saveCalls := 0, outboxWriteCalls := 0 }) := by
  unfold InitiatePayment
  simp only
  rw [hhit]

/-- Replay path: with no usable cache hit and a stored row under the key
that rehydrates, the service returns the stored row's identifier and status,
touching nothing. -/
theorem initiate_replays {κ : Type} (C : CacheOps κ)
    (mar : Event → Except Unit String) (insf : Nat → Bool) (freshID : String)
    (now : Nat) (req : InitiatePaymentRequest) (cache : κ) (db : DB)
    (row : Row) (m : Money)
    (hmiss : ∀ r, (C.get cache req.idempotencyKey).2 ≠ .ok (some (some r)))
    (hfind : db.payments.find?
      (fun r => r.idempotencyKey == req.idempotencyKey) = some row)
    (hm : NewMoney row.amountCents row.currency = .ok m) :
    InitiatePayment C mar insf freshID now req cache db
      = (.ok { paymentID := row.id, status := statusString row.status },
         C.setNX (C.get cache req.idempotencyKey).1 req.idempotencyKey
           { paymentID := row.id, status := statusString row.status },
         db, { findCalls := 1, saveCalls := 0, outboxWriteCalls := 0 }) := by
  have hfind' : FindByIdempotencyKey req.idempotencyKey db
      = .ok (some (Reconstitute row.id row.orderID row.customerID m row.status
          row.providerRef row.failureReason row.idempotencyKey row.createdAt
          row.updatedAt row.version)) := by
    unfold FindByIdempotencyKey
    rw [hfind]
    simp only
    rw [hm]
  unfold InitiatePayment
  simp only
  rcases hg : (C.get cache req.idempotencyKey).2 with u | o
  · rw [hfind']
    rfl
  · rcases o with _ | o'
    · rw [hfind']
      rfl
    · rcases o' with _ | r
      · rw [hfind']
        rfl
      · exact absurd hg (hmiss r)

/-- Creation path: with no usable cache hit, no aggregate stored under the
key, a fresh identifier and a valid request, the service creates, saves and
returns the new aggregate; exactly one new row is appended. -/
theorem initiate_creates {κ : Type} (C : CacheOps κ)
    (mar : Event → Except Unit String) (insf : Nat → Bool) (freshID : String)
    (now : Nat) (req : InitiatePaymentRequest) (cache : κ) (db : DB)
    (money : Money)
    (hmar : ∀ e, ∃ s, mar e = .ok s) (hins : ∀ j, insf j = false)
    (hmiss : ∀ r, (C.get cache req.idempotencyKey).2 ≠ .ok (some (some r)))
    (hfind : db.payments.find?
      (fun r => r.idempotencyKey == req.idempotencyKey) = none)
    (hid : db.payments.find? (fun r => r.id == freshID) = none)
    (hm : NewMoney req.amountCents req.currency = .ok money)
    (ho : goTrimSpace req.orderID ≠ "")
    (hc : goTrimSpace req.customerID ≠ "")
    (hk : goTrimSpace req.idempotencyKey ≠ "") :
    ∃ db₁ : DB, ∃ row : Row,
      InitiatePayment C mar insf freshID now req cache db =
        (.ok { paymentID := freshID, status := "PENDING" },
         C.setNX (C.get cache req.idempotencyKey).1 req.idempotencyKey
           { paymentID := freshID, status := "PENDING" },
         db₁, { findCalls := 1, saveCalls := 1, outboxWriteCalls := 0 }) ∧
      db₁.payments = db.payments ++ [row] ∧
      row.idempotencyKey = req.idempotencyKey ∧
      row.id = freshID ∧ row.status = .pending ∧
      row.amountCents = money.amount ∧ row.currency = money.currency := by
  obtain ⟨hma, hpos, hcur⟩ := newMoney_ok_fields req.amountCents req.currency
    money hm
  have hfind' : FindByIdempotencyKey req.idempotencyKey db = .ok none := by
    unfold FindByIdempotencyKey
    rw [hfind]
  have hNew : New req.orderID req.customerID money req.idempotencyKey freshID
      now = .ok (freshPayment req money freshID now) := by
    rw [New, if_neg ho, if_neg hc, if_neg hk]
    rfl
  obtain ⟨out, hSave⟩ := save_insert_ok mar insf now
      (freshPayment req money freshID now)
      db hmar hins hid (by show ¬ money.amount ≤ 0; rw [hma]; exact hpos) hfind
  have hcs : createAndSave C mar insf freshID now req
      (C.get cache req.idempotencyKey).1 db =
      (.ok { paymentID := freshID, status := "PENDING" },
       C.setNX (C.get cache req.idempotencyKey).1 req.idempotencyKey
         { paymentID := freshID, status := "PENDING" },
       { payments := db.payments ++
           [rowOfPayment (freshPayment req money freshID now)],
         outbox := out },
       { findCalls := 0, saveCalls := 1, outboxWriteCalls := 0 }) := by
    unfold createAndSave
    rw [hm]
    simp only
    rw [hNew]
    simp only
    rw [hSave]
    rfl
  have hmain : InitiatePayment C mar insf freshID now req cache db =
      (.ok { paymentID := freshID, status := "PENDING" },
       C.setNX (C.get cache req.idempotencyKey).1 req.idempotencyKey
         { paymentID := freshID, status := "PENDING" },
       { payments := db.payments ++
           [rowOfPayment (freshPayment req money freshID now)],
         outbox := out },
       { findCalls := 1, saveCalls := 1, outboxWriteCalls := 0 }) := by
    unfold InitiatePayment
    simp only
    rcases hg : (C.get cache req.idempotencyKey).2 with u | o
    · rw [hfind']
      simp only
      rw [hcs]
    · rcases o with _ | o'
      · rw [hfind']
        simp only
        rw [hcs]
      · rcases o' with _ | r
        · rw [hfind']
          simp only
          rw [hcs]
        · exact absurd hg (hmiss r)
  exact ⟨{ payments := db.payments ++
             [rowOfPayment (freshPayment req money freshID now)],
           outbox := out },
         rowOfPayment (freshPayment req money freshID now),
         hmain, rfl, rfl, rfl, rfl, rfl, rfl⟩

end GoPay

/-! ## Claim C1 -/

namespace GoPay

/-- C1: for a valid request, two sequential `InitiatePayment` calls with the
same idempotency key return the same {payment identifier, status} and leave
exactly one aggregate row under that key.  First conjunct: with the cache
permanently failing (every Get errors, every Set is a no-op), the second
call finds the existing aggregate via `FindByIdempotencyKey` (findCalls = 1)
and creates nothing (saveCalls = 0, database unchanged).  Second conjunct:
the same holds under the normally operating SET-NX cache, where the second
call replays from the cache. -/
theorem initiatePayment_idempotent_replay
    (req : InitiatePaymentRequest) (db : DB) (fid1 fid2 : String)
    (now1 now2 : Nat) (money : Money)
    (hm : NewMoney req.amountCents req.currency = .ok money)
    (hm2 : NewMoney money.amount money.currency = .ok money)
    (ho : goTrimSpace req.orderID ≠ "")
    (hc : goTrimSpace req.customerID ≠ "")
    (hk : goTrimSpace req.idempotencyKey ≠ "")
    (hkey : db.payments.find?
      (fun r => r.idempotencyKey == req.idempotencyKey) = none)
    (hid : db.payments.find? (fun r => r.id == fid1) = none) :
    (∃ resp db₁,
      InitiatePayment failingCache marshalEvent noInsertFailure fid1 now1 req
          () db
        = (.ok resp, (), db₁,
           { findCalls := 1, saveCalls := 1, outboxWriteCalls := 0 }) ∧
      InitiatePayment failingCache marshalEvent noInsertFailure fid2 now2 req
          () db₁
        = (.ok resp, (), db₁,
           { findCalls := 1, saveCalls := 0, outboxWriteCalls := 0 }) ∧
      (db₁.payments.filter
        (fun r => r.idempotencyKey == req.idempotencyKey)).length = 1) ∧
    (∀ cs : List (String × Option InitiatePaymentResponse),
      cs.find? (fun e => e.1 == req.idempotencyKey) = none →
      ∃ resp cs₁ db₁,
        InitiatePayment memCache marshalEvent noInsertFailure fid1 now1 req
            cs db
          = (.ok resp, cs₁, db₁,
             { findCalls := 1, saveCalls := 1, outboxWriteCalls := 0 }) ∧
        InitiatePayment memCache marshalEvent noInsertFailure fid2 now2 req
            cs₁ db₁
          = (.ok resp, cs₁, db₁,
             { findCalls := 0, saveCalls := 0, outboxWriteCalls := 0 }) ∧
        (db₁.payments.filter
          (fun r => r.idempotencyKey == req.idempotencyKey)).length = 1) := by
  have hmarOK : ∀ e, ∃ s, marshalEvent e = .ok s := by
    intro e
    cases e
    exact ⟨_, rfl⟩
  have hinsOK : ∀ j, noInsertFailure j = false := fun _ => rfl
  constructor
  · have hmiss : ∀ r, ((failingCache.get () req.idempotencyKey).2
        ≠ Except.ok (some (some r))) := fun r h => Except.noConfusion h
    obtain ⟨db₁, row, h1, hdb₁, hrk, hrid, hrst, hram, hrcur⟩ :=
      initiate_creates failingCache marshalEvent noInsertFailure fid1 now1 req
        () db money hmarOK hinsOK hmiss hkey hid hm ho hc hk
    have hfind₂ : db₁.payments.find?
        (fun r => r.idempotencyKey == req.idempotencyKey) = some row := by
      rw [hdb₁, List.find?_append, hkey]
      simp [List.find?_cons, hrk]
    have hm₂ : NewMoney row.amountCents row.currency = .ok money := by
      rw [hram, hrcur]
      exact hm2
    have h2 := initiate_replays failingCache marshalEvent noInsertFailure fid2
      now2 req () db₁ row money hmiss hfind₂ hm₂
    rw [hrid, hrst] at h2
    refine ⟨{ paymentID := fid1, status := "PENDING" }, db₁, h1, h2, ?_⟩
    rw [hdb₁, List.filter_append,
      List.filter_eq_nil_iff.mpr (List.find?_eq_none.mp hkey)]
    simp [List.filter_cons, hrk]
  · intro cs hcs
    have hmissM : ∀ r, ((memCache.get cs req.idempotencyKey).2
        ≠ Except.ok (some (some r))) := by
      intro r h
      have hmap : ((cs.find? (fun e => e.1 == req.idempotencyKey)).map (·.2))
          = some (some r) := Except.ok.inj h
      rw [hcs] at hmap
      exact Option.noConfusion hmap
    obtain ⟨db₁, row, h1, hdb₁, hrk, hrid, hrst, hram, hrcur⟩ :=
      initiate_creates memCache marshalEvent noInsertFailure fid1 now1 req
        cs db money hmarOK hinsOK hmissM hkey hid hm ho hc hk
    have hanyc : cs.any (fun e => e.1 == req.idempotencyKey) = false :=
      List.any_eq_false.mpr (List.find?_eq_none.mp hcs)
    have hcs₁ : memCache.setNX cs req.idempotencyKey
        { paymentID := fid1, status := "PENDING" }
        = cs ++ [(req.idempotencyKey,
            some { paymentID := fid1, status := "PENDING" })] := by
      simp [memCache, hanyc]
    have hhit : (memCache.get (memCache.setNX cs req.idempotencyKey
        { paymentID := fid1, status := "PENDING" }) req.idempotencyKey).2
        = Except.ok (some (some { paymentID := fid1, status := "PENDING" })) := by
      show Except.ok (((memCache.setNX cs req.idempotencyKey
        { paymentID := fid1, status := "PENDING" }).find?
          (fun e => e.1 == req.idempotencyKey)).map (·.2)) = _
      rw [hcs₁, List.find?_append, hcs]
      simp
    have h2 := initiate_cache_hit memCache marshalEvent noInsertFailure fid2
      now2 req (memCache.setNX cs req.idempotencyKey
        { paymentID := fid1, status := "PENDING" }) db₁
      { paymentID := fid1, status := "PENDING" } hhit
    refine ⟨{ paymentID := fid1, status := "PENDING" },
      memCache.setNX cs req.idempotencyKey
        { paymentID := fid1, status := "PENDING" }, db₁, h1, h2, ?_⟩
    rw [hdb₁, List.filter_append,
      List.filter_eq_nil_iff.mpr (List.find?_eq_none.mp hkey)]
    simp [List.filter_cons, hrk]

end GoPay

namespace GoPay

/-- C1 witness: concrete double initiation of `sampleReq` over the empty
store, with fresh identifiers "B" and "B2". -/
theorem initiatePayment_idempotent_replay_witness :
    (∃ resp db₁,
      InitiatePayment failingCache marshalEvent noInsertFailure "B" 3
          sampleReq () { payments := [], outbox := [] }
        = (.ok resp, (), db₁,
           { findCalls := 1, saveCalls := 1, outboxWriteCalls := 0 }) ∧
      InitiatePayment failingCache marshalEvent noInsertFailure "B2" 4
          sampleReq () db₁
        = (.ok resp, (), db₁,
           { findCalls := 1, saveCalls := 0, outboxWriteCalls := 0 }) ∧
      (db₁.payments.filter
        (fun r => r.idempotencyKey == sampleReq.idempotencyKey)).length = 1) ∧
    (∀ cs : List (String × Option InitiatePaymentResponse),
      cs.find? (fun e => e.1 == sampleReq.idempotencyKey) = none →
      ∃ resp cs₁ db₁,
        InitiatePayment memCache marshalEvent noInsertFailure "B" 3 sampleReq
            cs { payments := [], outbox := [] }
          = (.ok resp, cs₁, db₁,
             { findCalls := 1, saveCalls := 1, outboxWriteCalls := 0 }) ∧
        InitiatePayment memCache marshalEvent noInsertFailure "B2" 4 sampleReq
            cs₁ db₁
          = (.ok resp, cs₁, db₁,
             { findCalls := 0, saveCalls := 0, outboxWriteCalls := 0 }) ∧
        (db₁.payments.filter
          (fun r => r.idempotencyKey == sampleReq.idempotencyKey)).length = 1) :=
  initiatePayment_idempotent_replay sampleReq { payments := [], outbox := [] }
    "B" "B2" 3 4 { amount := 1000, currency := "USD" } rfl rfl (by decide)
    (by decide) (by decide) rfl rfl

end GoPay
